import Mathlib

/-!
Verification of the batch-operation executor and the single-item exercises of
the dynamodb-course repository, shallowly embedded in Lean.

The embedded functions are translated from:
* `src/section3/02-solution.ts` — `chunkArray`, `batchAddContent` (batch-write
  executor with retry/backoff and per-category counters);
* `src/section3/01-solution.ts` — `getUserAnalytics` (batch-read retry loop);
* `src/section-2/03-solution.ts` — `updateInventory` (single conditional update);
* `src/section-2/04-solution.ts` — `putProduct` (validated single put).

External store behaviour (`client.send`) is a parameter of each model: a
function from the attempt number to the store's response, so theorems quantify
over every possible sequence of store responses.
-/

set_option autoImplicit false

namespace DynamoCourse

/-! ### Chunker (`chunkArray`, 02-solution.ts lines 242–246)

JS source:
`Array.from({ length: Math.ceil(array.length / size) }, (_, i) => array.slice(i * size, (i + 1) * size))`.
`Math.ceil (n / size)` for `size ≥ 1` is `(n + size - 1) / size` in natural
division, and `slice (i*size) ((i+1)*size)` is `(drop (i*size)).take size`. -/

def chunkArray {α : Type*} (array : List α) (size : Nat) : List (List α) :=
  (List.range ((array.length + size - 1) / size)).map
    fun i => (array.drop (i * size)).take size

/-! ### Batch-write executor (`batchAddContent`, 02-solution.ts lines 274–350)

A write request sent to `BatchWriteItemCommand` is a `PutRequest` whose marshalled
item carries the composite key (`PK`, `SK`); the executor classifies entries and
matches responses only through `item.PutRequest.Item.PK.S` / `.SK.S`, so the
embedding identifies a request by those two strings. -/

structure WriteItem where
  PK : String
  SK : String
deriving DecidableEq

/-- The `processedCount` record (`{ metadata, episodes, stats }`). -/
structure ProcessedCounts where
  metadata : Nat
  episodes : Nat
  stats : Nat
deriving DecidableEq

def ProcessedCounts.add (a b : ProcessedCounts) : ProcessedCounts :=
  ⟨a.metadata + b.metadata, a.episodes + b.episodes, a.stats + b.stats⟩

def ProcessedCounts.total (c : ProcessedCounts) : Nat :=
  c.metadata + c.episodes + c.stats

/-- One step of the counter update the source performs for each item of the
NEW `unprocessedChunk` after an attempt (02-solution.ts lines 306–311):
`if (sk === "METADATA") metadata++ else if (sk.startsWith("EPISODE#")) episodes++
else if (sk === "STATS") stats++`. -/
def bumpCount (c : ProcessedCounts) (item : WriteItem) : ProcessedCounts :=
  if item.SK = "METADATA" then { c with metadata := c.metadata + 1 }
  else if item.SK.startsWith "EPISODE#" then { c with episodes := c.episodes + 1 }
  else if item.SK = "STATS" then { c with stats := c.stats + 1 }
  else c

/-- The increments one `unprocessedChunk.forEach` pass contributes.  The source
mutates a single shared counter; the model sums the per-pass contributions,
which is the same total since the counter is only ever incremented. -/
def countItems (items : List WriteItem) : ProcessedCounts :=
  items.foldl bumpCount ⟨0, 0, 0⟩

/-- Result of one `client.send(new BatchWriteItemCommand ...)` call:
`ok unprocessed` models a response whose `UnprocessedItems[TABLE_NAME]` list is
`unprocessed` (absent ⇒ `[]`, line 303), `err` models `client.send` throwing
(the `catch` branch, lines 319–323). -/
inductive SubmitResult where
  | ok (unprocessed : List WriteItem)
  | err
deriving DecidableEq

/-- Observable behaviour of one chunk's `while (unprocessedChunk.length > 0 && retryCount < 3)`
loop: the list passed to each `BatchWriteItemCommand`, the `setTimeout` delays,
the counter increments performed, the entries that left the pending set
(submitted minus returned-unprocessed, per attempt — the spec's notion of
completed entries), the final `unprocessedChunk`, and whether the `catch`
branch was taken. -/
structure ChunkRun where
  submits : List (List WriteItem)
  delays : List Nat
  counts : ProcessedCounts
  completed : Multiset WriteItem
  finalPending : List WriteItem
  errored : Bool

/-- `retryCount < 3` in the loop guard. -/
def maxWriteRetries : Nat := 3

/-- The per-chunk retry loop (02-solution.ts lines 283–324), with
`submit attempt pending` standing for the store's response to the
`attempt`-th call on this chunk.  The first argument is the remaining
attempt budget `maxWriteRetries - retryCount`, so the fuel-0 exit is exactly
the loop guard `retryCount < 3` failing; `retryCount` is the second argument. -/
def runChunkAux (submit : Nat → List WriteItem → SubmitResult) :
    Nat → Nat → List WriteItem → ChunkRun
  | 0, _, pending => ⟨[], [], ⟨0, 0, 0⟩, 0, pending, false⟩
  | _ + 1, _, [] => ⟨[], [], ⟨0, 0, 0⟩, 0, [], false⟩
  | fuel + 1, retryCount, pending =>
    match submit retryCount pending with
    | .err => ⟨[pending], [], ⟨0, 0, 0⟩, 0, pending, true⟩
    | .ok unproc =>
      if unproc = [] then
        ⟨[pending], [], countItems unproc, (pending : Multiset WriteItem), [], false⟩
      else
        let rest := runChunkAux submit fuel (retryCount + 1) unproc
        ⟨pending :: rest.submits,
         2 ^ (retryCount + 1) * 100 :: rest.delays,
         (countItems unproc).add rest.counts,
         ((pending : Multiset WriteItem) - (unproc : Multiset WriteItem)) + rest.completed,
         rest.finalPending,
         rest.errored⟩

/-- One run per chunk of the `for (const chunk of itemChunks)` loop;
`submit` also takes the chunk's index so that a theorem can quantify over
independent response sequences per chunk. -/
def runChunksAux (submit : Nat → Nat → List WriteItem → SubmitResult) :
    Nat → List (List WriteItem) → List ChunkRun
  | _, [] => []
  | chunkIdx, chunk :: rest =>
    runChunkAux (submit chunkIdx) maxWriteRetries 0 chunk ::
      runChunksAux submit (chunkIdx + 1) rest

/-- What one chunk contributes to the source's `unprocessedItems` list: the
`catch` branch appends `unprocessedChunk` (line 321) and, after `break`, the
post-loop `if (unprocessedChunk.length > 0)` appends the same list again
(lines 327–329); a chunk that merely exhausts its retries contributes its
final pending list once. -/
def ChunkRun.reported (r : ChunkRun) : List WriteItem :=
  (if r.errored then r.finalPending else []) ++ r.finalPending

def batchUnprocessed (runs : List ChunkRun) : List WriteItem :=
  (runs.map ChunkRun.reported).flatten

def totalCounts (runs : List ChunkRun) : ProcessedCounts :=
  (runs.map ChunkRun.counts).foldr ProcessedCounts.add ⟨0, 0, 0⟩

def totalCompleted (runs : List ChunkRun) : Multiset WriteItem :=
  (runs.map ChunkRun.completed).sum

def totalFinalPending (runs : List ChunkRun) : Multiset WriteItem :=
  (runs.map fun r => ((r.finalPending : Multiset WriteItem))).sum

/-- An element of the response's `unprocessedItems` array (lines 340–349);
`itemType` is the source's `type` field. -/
structure UnprocessedEntry where
  itemId : String
  itemType : String
  reason : String
deriving DecidableEq

def toUnprocessedEntry (item : WriteItem) : UnprocessedEntry :=
  { itemId := item.PK,
    itemType :=
      if item.SK = "METADATA" then "metadata"
      else if item.SK = "STATS" then "stats"
      else "episode",
    reason := "Failed after maximum retries" }

/-- The caller-visible parts of `BatchWriteContentResponse` the batch loop
determines (`success`, `message`, `processedItems`, `unprocessedItems`). -/
structure BatchWriteContentResponse where
  success : Bool
  message : String
  processedItems : ProcessedCounts
  unprocessedItems : List UnprocessedEntry
deriving DecidableEq

/-- The chunking-and-retry body of `batchAddContent` (lines 271–350), taking the
already-formatted `batchItems` list as input.  The source calls
`chunkArray(batchItems, 25)`; the chunk size is a parameter here so the model
also covers the spec's `maxSize` configurations (§8 scenario B uses 2). -/
def batchAddContent (submit : Nat → Nat → List WriteItem → SubmitResult)
    (items : List WriteItem) (size : Nat) : BatchWriteContentResponse :=
  let runs := runChunksAux submit 0 (chunkArray items size)
  let unp := batchUnprocessed runs
  { success := unp.isEmpty,
    message :=
      if unp.isEmpty then "All items processed successfully"
      else "Some items were not processed",
    processedItems := totalCounts runs,
    unprocessedItems := unp.map toUnprocessedEntry }

/-! ### Batch-read executor (`getUserAnalytics`, 01-solution.ts lines 112–224) -/

/-- A `BatchGetItemCommand` key `{ PK: { S: ... }, SK: { S: ... } }`. -/
structure DynKey where
  PK : String
  SK : String
deriving DecidableEq

/-- 01-solution.ts lines 94–99. -/
def formatUserKeys (userIds : List String) : List DynKey :=
  userIds.map fun userId => ⟨"USER#" ++ userId, "PROFILE#" ++ userId⟩

/-- 01-solution.ts lines 102–107. -/
def formatViewingHistoryKeys (userIds : List String) : List DynKey :=
  userIds.map fun userId => ⟨"USER#" ++ userId, "VIEWING#"⟩

/-- Observable behaviour of the `while (unprocessedKeys && retryCount < maxRetries)`
loop: the `Keys` array passed to each `BatchGetItemCommand`, the sleep delays,
and the value of the `unprocessedKeys` boolean when the loop exits. -/
structure GetRun where
  submits : List (List DynKey)
  delays : List Nat
  unprocessedFlag : Bool
deriving DecidableEq

/-- `maxRetries = 3` (01-solution.ts line 142). -/
def maxReadRetries : Nat := 3

/-- The retry loop of `getUserAnalytics` (lines 146–188).  `keys` is the `Keys`
array the loop rebuilds from `userIds` on EVERY iteration (lines 147–156) — it
never restricts to the previous response's `UnprocessedKeys`.  `responses n`
is the `UnprocessedKeys` content of the `n`-th response (`[]` ⇔
`Object.keys(response.UnprocessedKeys).length === 0`).  As in `runChunkAux`,
the fuel argument is `maxReadRetries - retryCount`.  The collected
profile/viewing-history items do not influence the control flow or the
response's `success`/`message` fields and are not modelled. -/
def getLoopAux (keys : List DynKey) (responses : Nat → List DynKey) :
    Nat → Nat → GetRun
  | 0, _ => ⟨[], [], true⟩
  | fuel + 1, retryCount =>
    if responses retryCount = [] then ⟨[keys], [], false⟩
    else
      let rest := getLoopAux keys responses fuel (retryCount + 1)
      ⟨keys :: rest.submits, 2 ^ (retryCount + 1) * 100 :: rest.delays,
       rest.unprocessedFlag⟩

def getUserAnalyticsRun (userIds : List String) (responses : Nat → List DynKey) :
    GetRun :=
  getLoopAux (formatUserKeys userIds ++ formatViewingHistoryKeys userIds)
    responses maxReadRetries 0

/-- The `success`/`message`/`error` part of `BatchReadResponse`
(01-solution.ts lines 52–57; `data` is not modelled, see `getLoopAux`). -/
structure BatchReadResponse where
  success : Bool
  message : Option String
  error : Option String
deriving DecidableEq

/-- `/^\d+$/.test(id)` (line 132): one or more decimal digits. -/
def validUserId (id : String) : Bool :=
  decide (id.length ≥ 1) && id.toList.all Char.isDigit

/-- `getUserAnalytics` without its `catch` wrapper: input validation
(lines 117–137) followed by the retry loop and response shaping
(lines 210–216). -/
def getUserAnalytics (userIds : List String) (responses : Nat → List DynKey) :
    BatchReadResponse :=
  if userIds.isEmpty then
    ⟨false, none, some "User IDs array cannot be empty"⟩
  else if userIds.length > 100 then
    ⟨false, none, some "Cannot process more than 100 items in a batch"⟩
  else if !userIds.all validUserId then
    ⟨false, none, some "Invalid user ID format detected"⟩
  else
    let run := getUserAnalyticsRun userIds responses
    ⟨true,
     some (if run.unprocessedFlag then
        "Some items could not be retrieved after maximum retries"
      else "All items retrieved successfully"),
     none⟩

/-! ### Single-item conditional update (`updateInventory`, 03-solution.ts lines 25–79) -/

inductive StockOperation where
  | add
  | subtract
deriving DecidableEq

/-- `UpdateStockRequest` (types.ts lines 36–41). -/
structure UpdateStockRequest where
  productId : String
  quantity : Int
  operation : StockOperation
  updatedBy : String

/-- The computed add/subtract expression (03-solution.ts lines 36–37).  The
source assigns it to `quantityUpdate` and never reads it again. -/
def quantityUpdate (op : StockOperation) : String :=
  match op with
  | .add => "stock + :quantity"
  | .subtract => "stock - :quantity"

/-- The `UpdateItemCommand` input built at lines 46–54.  The source marshalls
`:quantity` as the decimal string `String(request.quantity)` and `:zero` as
`"0"`; the model records the numeric content of `:quantity` and keeps the
condition's comparison against zero inside the store semantics below. -/
structure UpdateItemCommand where
  keyPK : String
  keySK : String
  UpdateExpression : String
  ConditionExpression : String
  quantityValue : Int
  updateTimeValue : String
deriving DecidableEq

/-- Command construction from the request (03-solution.ts lines 29–54);
`now` is the value of `new Date().toISOString()`. -/
def buildUpdateInventoryCommand (r : UpdateStockRequest) (now : String) :
    UpdateItemCommand :=
  { keyPK := "PRODUCT#" ++ r.productId,
    keySK := "METADATA#" ++ r.productId,
    UpdateExpression := "SET stock = :quantity,\n                        lastUpdated = :updateTime",
    ConditionExpression :=
      "attribute_not_exists(stock) OR (attribute_exists(stock) AND stock >= :zero)",
    quantityValue := r.quantity,
    updateTimeValue := now }

/-- The stored item's fields the command touches. -/
structure InventoryItem where
  stock : Int
  lastUpdated : String
deriving DecidableEq

inductive StoreOutcome where
  | updated (newItem : InventoryItem)
  | conditionalCheckFailed
deriving DecidableEq

/-- Store semantics of the command: the condition
`attribute_not_exists(stock) OR (attribute_exists(stock) AND stock >= :zero)`
over the current item, then the update `SET stock = :quantity, lastUpdated =
:updateTime`.  Note the condition reads only the CURRENT stock and the update
overwrites stock with `:quantity`; neither computes `stock - quantity`. -/
def conditionalUpdate (cmd : UpdateItemCommand) (item : Option InventoryItem) :
    StoreOutcome :=
  match item with
  | none => .updated ⟨cmd.quantityValue, cmd.updateTimeValue⟩
  | some it =>
    if 0 ≤ it.stock then .updated ⟨cmd.quantityValue, cmd.updateTimeValue⟩
    else .conditionalCheckFailed

/-- `ProductResponse` as `updateInventory` fills it (`ReturnValues: "ALL_NEW"`,
so `data` is the new item on success). -/
structure ProductResponse where
  success : Bool
  data : Option InventoryItem
  error : Option String
deriving DecidableEq

/-- `updateInventory` (03-solution.ts lines 25–79): build the command, send it,
map `ConditionalCheckFailedException` to the "Insufficient stock available"
failure.  Returns the response together with the resulting stored item. -/
def updateInventory (r : UpdateStockRequest) (now : String)
    (item : Option InventoryItem) : ProductResponse × Option InventoryItem :=
  match conditionalUpdate (buildUpdateInventoryCommand r now) item with
  | .updated newItem => (⟨true, some newItem, none⟩, some newItem)
  | .conditionalCheckFailed =>
    (⟨false, none, some "Insufficient stock available"⟩, item)

/-! ### Validated single put (`putProduct`, 04-solution.ts lines 79–148) -/

/-- The `Product` interface (04-solution.ts lines 48–58). -/
structure Product where
  PK : String
  SK : String
  productId : String
  name : String
  category : String
  price : Rat
  stock : Rat
  lastUpdated : String
  brand : String
deriving DecidableEq

/-- Either a validation rejection (`{ success: false, error }` before any store
call) or the `PutItemCommand` reaching `client.send`. -/
inductive PutProductOutcome where
  | validationError (error : String)
  | storeCall (item : Product)
deriving DecidableEq

/-- The `for (const field of requiredFields) if (!product[field]) ...` loop
(04-solution.ts lines 82–97).  JS `!product[field]` is true for the empty
string and for the number 0 (NaN, also falsy, has no counterpart in the `Rat`
model). -/
def requiredFieldCheck (p : Product) : Option String :=
  if p.PK = "" then some "Missing required field: PK"
  else if p.SK = "" then some "Missing required field: SK"
  else if p.productId = "" then some "Missing required field: productId"
  else if p.name = "" then some "Missing required field: name"
  else if p.category = "" then some "Missing required field: category"
  else if p.price = 0 then some "Missing required field: price"
  else if p.stock = 0 then some "Missing required field: stock"
  else if p.lastUpdated = "" then some "Missing required field: lastUpdated"
  else if p.brand = "" then some "Missing required field: brand"
  else none

def approvedBrands : List String := ["Apple", "Samsung", "Sony", "Nike", "Adidas"]

/-- `price.toFixed(2) !== price.toString()` rejects more than two decimal
places; on a finite rational it holds exactly when `100 * price` is not an
integer (`Number.isFinite` is always true in the `Rat` model). -/
def priceRuleViolated (price : Rat) : Prop :=
  price ≤ 0 ∨ (price * 100).den ≠ 1

instance : DecidablePred priceRuleViolated := fun p => by
  unfold priceRuleViolated; infer_instance

/-- `product.stock < 0 || !Number.isInteger(product.stock)` (line 110). -/
def stockRuleViolated (stock : Rat) : Prop :=
  stock < 0 ∨ stock.den ≠ 1

instance : DecidablePred stockRuleViolated := fun p => by
  unfold stockRuleViolated; infer_instance

/-- `putProduct` up to the store call (04-solution.ts lines 79–140).
`dateOk` stands for `!isNaN(Date.parse(s))` (line 123), kept abstract. -/
def putProduct (dateOk : String → Bool) (p : Product) : PutProductOutcome :=
  match requiredFieldCheck p with
  | some e => .validationError e
  | none =>
    if priceRuleViolated p.price then
      .validationError "Price must be positive with max 2 decimal places"
    else if stockRuleViolated p.stock then
      .validationError "Stock must be a non-negative integer"
    else if !(p.PK.startsWith "PRODUCT#") || !(p.SK.startsWith "METADATA#") then
      .validationError "Invalid PK or SK format"
    else if !dateOk p.lastUpdated then
      .validationError "Invalid date format"
    else if !(approvedBrands.contains p.brand) then
      .validationError "Invalid brand"
    else .storeCall p

/-! ### Concrete scenarios used by the witnesses and counterexamples -/

/-- A chunk of two metadata items whose first attempt leaves the second one
unprocessed and whose second attempt completes it. -/
def oneRetrySubmit : Nat → List WriteItem → SubmitResult :=
  fun attempt _ =>
    if attempt = 0 then .ok [⟨"B", "METADATA"⟩] else .ok []

/-- Spec §8 scenario B: five write items, chunked with `maxSize = 2` into
`[2, 2, 1]`; the store leaves one item of the first chunk unprocessed on
attempt 0 and completes everything else immediately. -/
def scenarioBItems : List WriteItem :=
  [⟨"A", "METADATA"⟩, ⟨"B", "METADATA"⟩, ⟨"C", "METADATA"⟩,
   ⟨"D", "METADATA"⟩, ⟨"E", "METADATA"⟩]

def scenarioBSubmit : Nat → Nat → List WriteItem → SubmitResult :=
  fun chunkIdx attempt _ =>
    if chunkIdx = 0 && attempt = 0 then .ok [⟨"B", "METADATA"⟩] else .ok []

/-- A store that completes every entry on the first attempt. -/
def allOkSubmit : Nat → Nat → List WriteItem → SubmitResult :=
  fun _ _ _ => .ok []

/-- A store that returns the single item `MOVIE#106 / METADATA` as unprocessed
on every attempt. -/
def neverDoneSubmit : Nat → Nat → List WriteItem → SubmitResult :=
  fun _ _ _ => .ok [⟨"MOVIE#106", "METADATA"⟩]

/-- Stock 0 together with an empty `PK`: both fields are falsy, and `PK` is
checked first by the required-field loop. -/
def productStockZeroEmptyPK : Product :=
  { PK := "", SK := "METADATA#101", productId := "101", name := "Smartphone X",
    category := "Electronics", price := 599, stock := 0,
    lastUpdated := "2024-01-01T00:00:00Z", brand := "Samsung" }

/-- Stock 0 with every other required field truthy and valid. -/
def productStockZero : Product :=
  { PK := "PRODUCT#101", SK := "METADATA#101", productId := "101",
    name := "Smartphone X", category := "Electronics", price := 599, stock := 0,
    lastUpdated := "2024-01-01T00:00:00Z", brand := "Samsung" }

end DynamoCourse

namespace DynamoCourse

theorem chunkArray_nil {α : Type*} (size : Nat) : chunkArray ([] : List α) size = [] := by
  unfold chunkArray
  have h : ((List.length ([] : List α)) + size - 1) / size = 0 := by
    rcases Nat.eq_zero_or_pos size with h | h
    · subst h; simp
    · apply Nat.div_eq_of_lt; simp; omega
  rw [h]; rfl

theorem chunkArray_cons {α : Type*} (l : List α) (size : Nat) (hsize : 1 ≤ size)
    (hl : l ≠ []) :
    chunkArray l size = l.take size :: chunkArray (l.drop size) size := by
  have hlen : 1 ≤ l.length := List.length_pos.mpr hl
  unfold chunkArray
  have hceil : (l.length + size - 1) / size = (l.length - 1) / size + 1 := by
    have : l.length + size - 1 = (l.length - 1) + size := by omega
    rw [this, Nat.add_div_right _ (by omega)]
  rw [hceil, List.range_succ_eq_map, List.map_cons, List.map_map]
  have hhead : (l.drop (0 * size)).take size = l.take size := by simp
  rw [hhead]
  congr 1
  have hlen' : (l.drop size).length = l.length - size := List.length_drop size l
  have hceil' : ((l.drop size).length + size - 1) / size = (l.length - 1) / size := by
    rw [hlen']
    rcases Nat.lt_or_ge (l.length) (size + 1) with hc | hc
    · have h1 : l.length - size = 0 := by omega
      rw [h1]
      have h2 : (size - 1) / size = 0 := Nat.div_eq_of_lt (by omega)
      have h3 : (l.length - 1) / size = 0 := Nat.div_eq_of_lt (by omega)
      simpa [h2] using h3.symm
    · have h1 : l.length - size + size - 1 = (l.length - 1) - size + size := by omega
      rw [h1, Nat.add_div_right _ (by omega)]
      rw [Nat.div_eq_sub_div (by omega) (by omega : size ≤ l.length - 1)]
  rw [hceil']
  apply List.map_congr_left
  intro i _
  simp only [Function.comp]
  rw [List.drop_drop]
  congr 2
  rw [Nat.succ_mul]; ring

theorem chunkArray_join {α : Type*} (l : List α) (size : Nat) (hsize : 1 ≤ size) :
    (chunkArray l size).flatten = l := by
  by_cases hl : l = []
  · subst hl; rw [chunkArray_nil]; rfl
  · rw [chunkArray_cons l size hsize hl, List.flatten_cons,
      chunkArray_join (l.drop size) size hsize, List.take_append_drop]
termination_by l.length
decreasing_by
  have : 1 ≤ l.length := List.length_pos.mpr hl
  simp only [List.length_drop]
  omega

theorem chunkArray_chunk_length_le {α : Type*} (l : List α) (size : Nat)
    (c : List α) (hc : c ∈ chunkArray l size) : c.length ≤ size := by
  unfold chunkArray at hc
  rcases List.mem_map.mp hc with ⟨i, _, rfl⟩
  exact List.length_take_le _ _

/-! ### Structural lemmas about the per-chunk retry loop -/

theorem runChunkAux_submits_head (submit : Nat → List WriteItem → SubmitResult)
    (fuel retryCount : Nat) (pending p : List WriteItem)
    (h : (runChunkAux submit fuel retryCount pending).submits[0]? = some p) :
    p = pending := by
  cases fuel with
  | zero => simp [runChunkAux] at h
  | succ fuel =>
    cases pending with
    | nil => simp [runChunkAux] at h
    | cons a t =>
      cases hs : submit retryCount (a :: t) with
      | err => simp [runChunkAux, hs] at h; exact h.symm
      | ok unproc =>
        by_cases hu : unproc = [] <;>
          simp [runChunkAux, hs, hu] at h <;> exact h.symm

theorem runChunkAux_resubmits (submit : Nat → List WriteItem → SubmitResult)
    (fuel : Nat) :
    ∀ (retryCount : Nat) (pending : List WriteItem) (k : Nat)
      (p q : List WriteItem),
      (runChunkAux submit fuel retryCount pending).submits[k]? = some p →
      (runChunkAux submit fuel retryCount pending).submits[k + 1]? = some q →
      submit (retryCount + k) p = .ok q := by
  induction fuel with
  | zero => intro rc pending k p q hp _; simp [runChunkAux] at hp
  | succ fuel ih =>
    intro rc pending k p q hp hq
    cases pending with
    | nil => simp [runChunkAux] at hp
    | cons a t =>
      cases hs : submit rc (a :: t) with
      | err =>
        simp [runChunkAux, hs] at hq
      | ok unproc =>
        by_cases hu : unproc = []
        · simp [runChunkAux, hs, hu] at hq
        · simp only [runChunkAux, hs, hu, if_neg] at hp hq
          cases k with
          | zero =>
            simp at hp hq
            have hq' : q = unproc :=
              runChunkAux_submits_head submit fuel (rc + 1) unproc q hq
            subst hq'
            simpa [hp.symm] using hs
          | succ k =>
            simp at hp hq
            have := ih (rc + 1) unproc k p q hp hq
            have harith : rc + 1 + k = rc + (k + 1) := by omega
            rwa [harith] at this

theorem runChunkAux_partition (submit : Nat → List WriteItem → SubmitResult)
    (fuel : Nat)
    (hsub : ∀ att pend unproc, submit att pend = .ok unproc →
      (unproc : Multiset WriteItem) ≤ (pend : Multiset WriteItem)) :
    ∀ (retryCount : Nat) (pending : List WriteItem),
      (runChunkAux submit fuel retryCount pending).completed +
        ((runChunkAux submit fuel retryCount pending).finalPending :
          Multiset WriteItem) =
        (pending : Multiset WriteItem) := by
  induction fuel with
  | zero => intro rc pending; simp [runChunkAux]
  | succ fuel ih =>
    intro rc pending
    cases pending with
    | nil => simp [runChunkAux]
    | cons a t =>
      cases hs : submit rc (a :: t) with
      | err => simp [runChunkAux, hs]
      | ok unproc =>
        by_cases hu : unproc = []
        · simp [runChunkAux, hs, hu]
        · simp only [runChunkAux, hs, if_neg hu]
          have hle : (unproc : Multiset WriteItem) ≤ ((a :: t : List WriteItem) : Multiset WriteItem) :=
            hsub rc (a :: t) unproc hs
          have := ih (rc + 1) unproc
          rw [add_assoc, this, tsub_add_cancel_of_le hle]

theorem runChunkAux_delays_eq (submit : Nat → List WriteItem → SubmitResult)
    (fuel : Nat) :
    ∀ (retryCount : Nat) (pending : List WriteItem) (i d : Nat),
      (runChunkAux submit fuel retryCount pending).delays[i]? = some d →
      d = 2 ^ (retryCount + i + 1) * 100 := by
  induction fuel with
  | zero => intro rc pending i d h; simp [runChunkAux] at h
  | succ fuel ih =>
    intro rc pending i d h
    cases pending with
    | nil => simp [runChunkAux] at h
    | cons a t =>
      cases hs : submit rc (a :: t) with
      | err => simp [runChunkAux, hs] at h
      | ok unproc =>
        by_cases hu : unproc = []
        · simp [runChunkAux, hs, hu] at h
        · simp only [runChunkAux, hs, if_neg hu] at h
          cases i with
          | zero => simp at h ⊢; omega
          | succ i =>
            simp at h
            have := ih (rc + 1) unproc i d h
            have harith : rc + 1 + i + 1 = rc + (i + 1) + 1 := by omega
            rwa [harith] at this

theorem runChunkAux_submits_length_le (submit : Nat → List WriteItem → SubmitResult)
    (fuel : Nat) :
    ∀ (retryCount : Nat) (pending : List WriteItem),
      (runChunkAux submit fuel retryCount pending).submits.length ≤ fuel := by
  induction fuel with
  | zero => intro rc pending; simp [runChunkAux]
  | succ fuel ih =>
    intro rc pending
    cases pending with
    | nil => simp [runChunkAux]
    | cons a t =>
      cases hs : submit rc (a :: t) with
      | err => simp [runChunkAux, hs]
      | ok unproc =>
        by_cases hu : unproc = []
        · simp [runChunkAux, hs, hu]
        · simp only [runChunkAux, hs, if_neg hu, List.length_cons]
          have := ih (rc + 1) unproc
          omega

theorem runChunkAux_submits_length_eq (submit : Nat → List WriteItem → SubmitResult)
    (fuel : Nat) :
    ∀ (retryCount : Nat) (pending : List WriteItem),
      (runChunkAux submit fuel retryCount pending).errored = false →
      (runChunkAux submit fuel retryCount pending).finalPending ≠ [] →
      (runChunkAux submit fuel retryCount pending).submits.length = fuel := by
  induction fuel with
  | zero => intro rc pending _ _; simp [runChunkAux]
  | succ fuel ih =>
    intro rc pending herr hfp
    cases pending with
    | nil => simp [runChunkAux] at hfp
    | cons a t =>
      cases hs : submit rc (a :: t) with
      | err => simp [runChunkAux, hs] at herr
      | ok unproc =>
        by_cases hu : unproc = []
        · simp [runChunkAux, hs, hu] at hfp
        · simp only [runChunkAux, hs, if_neg hu] at herr hfp ⊢
          simp only [List.length_cons]
          have := ih (rc + 1) unproc herr hfp
          omega

/-! ### Batch-level lemmas -/

theorem runChunksAux_partition (submit : Nat → Nat → List WriteItem → SubmitResult)
    (hsub : ∀ chunkIdx att pend unproc, submit chunkIdx att pend = .ok unproc →
      (unproc : Multiset WriteItem) ≤ (pend : Multiset WriteItem)) :
    ∀ (chunkIdx : Nat) (chunks : List (List WriteItem)),
      totalCompleted (runChunksAux submit chunkIdx chunks) +
        totalFinalPending (runChunksAux submit chunkIdx chunks) =
        (chunks.flatten : Multiset WriteItem) := by
  intro chunkIdx chunks
  induction chunks generalizing chunkIdx with
  | nil => simp [runChunksAux, totalCompleted, totalFinalPending]
  | cons chunk rest ih =>
    simp only [runChunksAux, totalCompleted, totalFinalPending, List.map_cons,
      List.sum_cons, List.flatten_cons]
    have h1 := runChunkAux_partition (submit chunkIdx) maxWriteRetries
      (hsub chunkIdx) 0 chunk
    have h2 := ih (chunkIdx + 1)
    simp only [totalCompleted, totalFinalPending] at h2
    calc (runChunkAux (submit chunkIdx) maxWriteRetries 0 chunk).completed +
          ((runChunksAux submit (chunkIdx + 1) rest).map ChunkRun.completed).sum +
          (((runChunkAux (submit chunkIdx) maxWriteRetries 0 chunk).finalPending :
              Multiset WriteItem) +
            ((runChunksAux submit (chunkIdx + 1) rest).map
              fun r => ((r.finalPending : Multiset WriteItem))).sum)
        = ((runChunkAux (submit chunkIdx) maxWriteRetries 0 chunk).completed +
            ((runChunkAux (submit chunkIdx) maxWriteRetries 0 chunk).finalPending :
              Multiset WriteItem)) +
          (((runChunksAux submit (chunkIdx + 1) rest).map ChunkRun.completed).sum +
            ((runChunksAux submit (chunkIdx + 1) rest).map
              fun r => ((r.finalPending : Multiset WriteItem))).sum) := by
          abel
      _ = (chunk : Multiset WriteItem) + (rest.flatten : Multiset WriteItem) := by
          rw [h1, h2]
      _ = ((chunk ++ rest.flatten : List WriteItem) : Multiset WriteItem) := by
          simp

theorem reported_eq_nil_iff (r : ChunkRun) :
    r.reported = [] ↔ r.finalPending = [] := by
  unfold ChunkRun.reported
  constructor
  · intro h
    rcases List.append_eq_nil.mp h with ⟨_, h2⟩
    exact h2
  · intro h
    simp [h]

theorem batchUnprocessed_eq_nil_iff (runs : List ChunkRun) :
    batchUnprocessed runs = [] ↔ totalFinalPending runs = 0 := by
  induction runs with
  | nil => simp [batchUnprocessed, totalFinalPending]
  | cons r rest ih =>
    simp only [batchUnprocessed, totalFinalPending, List.map_cons,
      List.flatten_cons, List.sum_cons, List.append_eq_nil]
    rw [reported_eq_nil_iff]
    constructor
    · rintro ⟨h1, h2⟩
      have h2' := (ih.mp (by simpa [batchUnprocessed] using h2))
      simp only [h1, Multiset.coe_nil, zero_add]
      simpa [totalFinalPending] using h2'
    · intro h
      have h1 : ((r.finalPending : Multiset WriteItem)) = 0 ∧
          ((rest.map fun r => ((r.finalPending : Multiset WriteItem))).sum) = 0 := by
        constructor
        · by_contra hne
          have hle : ((r.finalPending : Multiset WriteItem)) ≤ 0 := by
            rw [← h]; exact le_add_right le_rfl
          exact hne (Multiset.le_zero.mp hle)
        · by_contra hne
          have hle : ((rest.map fun r => ((r.finalPending : Multiset WriteItem))).sum) ≤ 0 := by
            rw [← h]; exact le_add_left le_rfl
          exact hne (Multiset.le_zero.mp hle)
      refine ⟨by simpa using h1.1, ?_⟩
      have := ih.mpr (by simpa [totalFinalPending] using h1.2)
      simpa [batchUnprocessed] using this

/-! ### Lemmas about the batch-read retry loop -/

theorem getLoopAux_submits_length_le (keys : List DynKey)
    (responses : Nat → List DynKey) (fuel : Nat) :
    ∀ retryCount : Nat,
      (getLoopAux keys responses fuel retryCount).submits.length ≤ fuel := by
  induction fuel with
  | zero => intro rc; simp [getLoopAux]
  | succ fuel ih =>
    intro rc
    by_cases h : responses rc = []
    · simp [getLoopAux, h]
    · simp only [getLoopAux, if_neg h, List.length_cons]
      have := ih (rc + 1)
      omega

theorem getLoopAux_delays_eq (keys : List DynKey)
    (responses : Nat → List DynKey) (fuel : Nat) :
    ∀ (retryCount i d : Nat),
      (getLoopAux keys responses fuel retryCount).delays[i]? = some d →
      d = 2 ^ (retryCount + i + 1) * 100 := by
  induction fuel with
  | zero => intro rc i d h; simp [getLoopAux] at h
  | succ fuel ih =>
    intro rc i d h
    by_cases hr : responses rc = []
    · simp [getLoopAux, hr] at h
    · simp only [getLoopAux, if_neg hr] at h
      cases i with
      | zero => simp at h ⊢; omega
      | succ i =>
        simp at h
        have := ih (rc + 1) i d h
        have harith : rc + 1 + i + 1 = rc + (i + 1) + 1 := by omega
        rwa [harith] at this

theorem mem_runChunksAux (submit : Nat → Nat → List WriteItem → SubmitResult)
    (chunkIdx : Nat) (chunks : List (List WriteItem)) (r : ChunkRun)
    (h : r ∈ runChunksAux submit chunkIdx chunks) :
    ∃ ci chunk, r = runChunkAux (submit ci) maxWriteRetries 0 chunk := by
  induction chunks generalizing chunkIdx with
  | nil => simp [runChunksAux] at h
  | cons c rest ih =>
    simp only [runChunksAux, List.mem_cons] at h
    rcases h with h | h
    · exact ⟨chunkIdx, c, h⟩
    · exact ih (chunkIdx + 1) h

/-! ### Claims -/

/-- C4: for every `maxSize ≥ 1` and every input sequence, the chunker's output
flattens back to the input (so every request lands in exactly one chunk, in
first-seen order), no chunk exceeds `maxSize`, and the total number of entries
across all chunks equals the input length. -/
theorem chunkArray_complete {α : Type*} (l : List α) (size : Nat)
    (hsize : 1 ≤ size) :
    (chunkArray l size).flatten = l ∧
    (∀ c ∈ chunkArray l size, c.length ≤ size) ∧
    ((chunkArray l size).map List.length).sum = l.length := by
  refine ⟨chunkArray_join l size hsize,
    fun c hc => chunkArray_chunk_length_le l size c hc, ?_⟩
  calc ((chunkArray l size).map List.length).sum
      = (chunkArray l size).flatten.length := (List.length_flatten _).symm
    _ = l.length := by rw [chunkArray_join l size hsize]

/-- C4 witness: the chunker's guarantees evaluated at five items with
`maxSize = 2`. -/
theorem chunkArray_complete_witness :
    (chunkArray [0, 1, 2, 3, 4] 2).flatten = [0, 1, 2, 3, 4] :=
  (chunkArray_complete [0, 1, 2, 3, 4] 2 (by decide)).1

/-- C1 counterexample: in `getUserAnalytics`, after attempt 0 returns only the
viewing-history key as unprocessed, attempt 1 submits the FULL key list
(profile key included) rather than the unprocessed entries, because the loop
rebuilds `Keys` from `userIds` on every iteration. -/
theorem getUserAnalytics_resubmits_full_key_list :
    (getUserAnalyticsRun ["1"] fun _ => [⟨"USER#1", "VIEWING#"⟩]).submits[1]? =
      some [⟨"USER#1", "PROFILE#1"⟩, ⟨"USER#1", "VIEWING#"⟩] ∧
    decide (([⟨"USER#1", "PROFILE#1"⟩, ⟨"USER#1", "VIEWING#"⟩] : List DynKey) =
      [⟨"USER#1", "VIEWING#"⟩]) = false := by decide

/-- C1 (amended, holds for `batchAddContent`): whenever the executor makes a
`k+1`-st submit call on a chunk, the list it submits is EXACTLY the
unprocessed list the store returned for the `k`-th call — completed entries
are never resubmitted and the entries are passed on verbatim. -/
theorem executor_resubmits_unprocessed_verbatim
    (submit : Nat → List WriteItem → SubmitResult) (chunk : List WriteItem)
    (k : Nat) (p q : List WriteItem)
    (hp : (runChunkAux submit maxWriteRetries 0 chunk).submits[k]? = some p)
    (hq : (runChunkAux submit maxWriteRetries 0 chunk).submits[k + 1]? = some q) :
    submit k p = .ok q := by
  have := runChunkAux_resubmits submit maxWriteRetries 0 chunk k p q hp hq
  simpa using this

/-- C1 witness: on a two-item chunk whose first attempt leaves one item
unprocessed, the second submit call receives exactly that item. -/
theorem executor_resubmits_unprocessed_verbatim_witness :
    oneRetrySubmit 0 [⟨"A", "METADATA"⟩, ⟨"B", "METADATA"⟩] =
      SubmitResult.ok [⟨"B", "METADATA"⟩] :=
  executor_resubmits_unprocessed_verbatim oneRetrySubmit
    [⟨"A", "METADATA"⟩, ⟨"B", "METADATA"⟩] 0
    [⟨"A", "METADATA"⟩, ⟨"B", "METADATA"⟩] [⟨"B", "METADATA"⟩]
    (by decide) (by decide)

/-- C2: evaluation of `batchAddContent`'s loop at a single one-item chunk whose
submit call throws.  The `catch` branch appends the pending list to
`unprocessedItems` and, after `break`, the post-loop append adds the SAME list
again, so the lone request is reported twice (and completed zero times) —
refuting the exactly-one-terminal-set claim. -/
theorem errored_chunk_reported_twice :
    batchUnprocessed (runChunksAux (fun _ _ _ => .err) 0
        (chunkArray [(⟨"MOVIE#106", "METADATA"⟩ : WriteItem)] 25)) =
      [⟨"MOVIE#106", "METADATA"⟩, ⟨"MOVIE#106", "METADATA"⟩] ∧
    totalCompleted (runChunksAux (fun _ _ _ => .err) 0
        (chunkArray [(⟨"MOVIE#106", "METADATA"⟩ : WriteItem)] 25)) = 0 := by
  decide

/-- C3: evaluation of `batchAddContent` at spec §8 scenario B (five items,
`maxSize = 2`, one item of the first chunk unprocessed on attempt 0 and
completed on attempt 1).  All five items complete (and the first chunk takes
2 attempts, the others 1), yet the reported per-category counts total 1, not
5, because the source increments the counters over the NEW unprocessed set
after each attempt instead of over the newly completed entries. -/
theorem batchAddContent_scenarioB_undercounts :
    (batchAddContent scenarioBSubmit scenarioBItems 2).processedItems =
      ⟨1, 0, 0⟩ ∧
    (batchAddContent scenarioBSubmit scenarioBItems 2).processedItems.total = 1 ∧
    totalCompleted (runChunksAux scenarioBSubmit 0 (chunkArray scenarioBItems 2)) =
      (scenarioBItems : Multiset WriteItem) ∧
    ((runChunksAux scenarioBSubmit 0 (chunkArray scenarioBItems 2)).map
      fun r => r.submits.length) = [2, 1, 1] := by
  decide

/-- C5 counterexample: when every attempt of `getUserAnalytics` reports
unprocessed keys, the loop exits with unprocessed keys still outstanding but
the function returns `success: true` (only the message differs), refuting
"success is true iff every submitted entry fully completed". -/
theorem getUserAnalytics_success_despite_unprocessed :
    (getUserAnalyticsRun ["1"] fun _ => [⟨"USER#1", "VIEWING#"⟩]).unprocessedFlag =
      true ∧
    getUserAnalytics ["1"] (fun _ => [⟨"USER#1", "VIEWING#"⟩]) =
      ⟨true, some "Some items could not be retrieved after maximum retries",
        none⟩ := by
  decide

/-- C5 (amended, holds for `batchAddContent`): provided each store response's
unprocessed entries come from the submitted ones (the BatchOutcome invariant),
the aggregate `success` flag is true iff every submitted entry completed —
i.e. no leftover unprocessed or failed entries in any chunk. -/
theorem batchAddContent_success_iff_all_completed
    (submit : Nat → Nat → List WriteItem → SubmitResult)
    (items : List WriteItem) (size : Nat) (hsize : 1 ≤ size)
    (hsub : ∀ chunkIdx att pend unproc, submit chunkIdx att pend = .ok unproc →
      (unproc : Multiset WriteItem) ≤ (pend : Multiset WriteItem)) :
    (batchAddContent submit items size).success = true ↔
      totalCompleted (runChunksAux submit 0 (chunkArray items size)) =
        (items : Multiset WriteItem) := by
  have hpart := runChunksAux_partition submit hsub 0 (chunkArray items size)
  rw [chunkArray_join items size hsize] at hpart
  have hsucc : (batchAddContent submit items size).success =
      (batchUnprocessed (runChunksAux submit 0 (chunkArray items size))).isEmpty :=
    rfl
  rw [hsucc, List.isEmpty_iff, batchUnprocessed_eq_nil_iff]
  constructor
  · intro h0
    rw [h0, add_zero] at hpart
    exact hpart
  · intro hc
    rw [hc] at hpart
    exact add_right_eq_self.mp hpart

/-- C5 witness: with a store that accepts everything first try, success holds
iff the lone item is completed. -/
theorem batchAddContent_success_iff_all_completed_witness :
    (batchAddContent allOkSubmit [⟨"MOVIE#106", "METADATA"⟩] 25).success = true ↔
      totalCompleted (runChunksAux allOkSubmit 0
          (chunkArray [(⟨"MOVIE#106", "METADATA"⟩ : WriteItem)] 25)) =
        ([⟨"MOVIE#106", "METADATA"⟩] : List WriteItem) :=
  batchAddContent_success_iff_all_completed allOkSubmit
    [⟨"MOVIE#106", "METADATA"⟩] 25 (by decide)
    (fun ci att pend unproc h => by
      simp [allOkSubmit] at h
      subst h
      simp)

/-- C6 counterexample: the first backoff sleep on a chunk is 200 ms
(`Math.pow(2, retryCount) * 100` AFTER `retryCount++`), not
`baseDelay * 2^0 = 100` as the claim's attempt-starts-at-0 formula requires. -/
theorem backoff_first_delay_is_double_base :
    (runChunkAux oneRetrySubmit maxWriteRetries 0
        [⟨"A", "METADATA"⟩, ⟨"B", "METADATA"⟩]).delays = [200] ∧
    decide ((200 : Nat) = 100 * 2 ^ 0) = false := by decide

/-- C6 (amended): the delay slept before the `i`-th retry (`i` counted from 0)
is `100 * 2^(i+1)` ms in both executors — i.e. `baseDelay * 2^attempt` with the
attempt count effectively starting at 1, and with no `maxDelay` cap anywhere —
and successive delays for the same chunk are non-decreasing. -/
theorem backoff_delays_formula_and_monotone
    (submit : Nat → List WriteItem → SubmitResult) (chunk : List WriteItem)
    (userIds : List String) (responses : Nat → List DynKey) :
    (∀ i d, (runChunkAux submit maxWriteRetries 0 chunk).delays[i]? = some d →
      d = 100 * 2 ^ (i + 1)) ∧
    (∀ (i j di dj : Nat), i ≤ j →
      (runChunkAux submit maxWriteRetries 0 chunk).delays[i]? = some di →
      (runChunkAux submit maxWriteRetries 0 chunk).delays[j]? = some dj →
      di ≤ dj) ∧
    (∀ i d, (getUserAnalyticsRun userIds responses).delays[i]? = some d →
      d = 100 * 2 ^ (i + 1)) := by
  refine ⟨?_, ?_, ?_⟩
  · intro i d h
    have hd := runChunkAux_delays_eq submit maxWriteRetries 0 chunk i d h
    simp only [Nat.zero_add] at hd
    rw [hd, Nat.mul_comm]
  · intro i j di dj hij hdi hdj
    have h1 := runChunkAux_delays_eq submit maxWriteRetries 0 chunk i di hdi
    have h2 := runChunkAux_delays_eq submit maxWriteRetries 0 chunk j dj hdj
    rw [h1, h2]
    have hpow : (2 : Nat) ^ (0 + i + 1) ≤ 2 ^ (0 + j + 1) :=
      Nat.pow_le_pow_right (by omega) (by omega)
    exact Nat.mul_le_mul_right 100 hpow
  · intro i d h
    have hd := getLoopAux_delays_eq
      (formatUserKeys userIds ++ formatViewingHistoryKeys userIds) responses
      maxReadRetries 0 i d h
    simp only [Nat.zero_add] at hd
    rw [hd, Nat.mul_comm]

/-- C6 witness: the first delay of the two-item one-retry scenario, 200 ms,
matches the amended formula `100 * 2^(0+1)`. -/
theorem backoff_delays_formula_and_monotone_witness :
    (200 : Nat) = 100 * 2 ^ (0 + 1) :=
  (backoff_delays_formula_and_monotone oneRetrySubmit
      [⟨"A", "METADATA"⟩, ⟨"B", "METADATA"⟩] ["1"] (fun _ => [])).1 0 200
    (by decide)

/-- C7 counterexample: entries left pending after the retry budget are reported
with reason "Failed after maximum retries", not the claim's quoted
"max attempts exceeded". -/
theorem leftover_reason_differs_from_spec :
    (batchAddContent neverDoneSubmit [⟨"MOVIE#106", "METADATA"⟩] 25).unprocessedItems =
      [⟨"MOVIE#106", "metadata", "Failed after maximum retries"⟩] ∧
    decide (("Failed after maximum retries" : String) = "max attempts exceeded") =
      false := by decide

/-- C7 (amended): each chunk's retry loop terminates after at most
`maxAttempts = 3` submit calls; a chunk that exits with a non-empty pending set
and no thrown error used exactly 3 attempts; every entry of the returned
`unprocessedItems` list carries reason "Failed after maximum retries" (reported
in the result, not raised); and the read loop likewise makes at most 3 calls. -/
theorem executor_termination_attempt_bound
    (submit : Nat → Nat → List WriteItem → SubmitResult)
    (items : List WriteItem) (size : Nat)
    (userIds : List String) (responses : Nat → List DynKey) :
    (∀ r ∈ runChunksAux submit 0 (chunkArray items size),
      r.submits.length ≤ maxWriteRetries) ∧
    (∀ r ∈ runChunksAux submit 0 (chunkArray items size),
      r.errored = false → r.finalPending ≠ [] →
      r.submits.length = maxWriteRetries) ∧
    (∀ e ∈ (batchAddContent submit items size).unprocessedItems,
      e.reason = "Failed after maximum retries") ∧
    (getUserAnalyticsRun userIds responses).submits.length ≤ maxReadRetries := by
  refine ⟨?_, ?_, ?_, ?_⟩
  · intro r hr
    obtain ⟨ci, chunk, rfl⟩ := mem_runChunksAux submit 0 _ r hr
    exact runChunkAux_submits_length_le (submit ci) maxWriteRetries 0 chunk
  · intro r hr herr hfp
    obtain ⟨ci, chunk, rfl⟩ := mem_runChunksAux submit 0 _ r hr
    exact runChunkAux_submits_length_eq (submit ci) maxWriteRetries 0 chunk herr hfp
  · intro e he
    have he' : e ∈ (batchUnprocessed (runChunksAux submit 0
        (chunkArray items size))).map toUnprocessedEntry := he
    rcases List.mem_map.mp he' with ⟨x, _, rfl⟩
    rfl
  · exact getLoopAux_submits_length_le _ responses maxReadRetries 0

/-- C7 witness: the reported entry of the never-completing one-item scenario
carries the amended reason string. -/
theorem executor_termination_attempt_bound_witness :
    (⟨"MOVIE#106", "metadata", "Failed after maximum retries"⟩ :
      UnprocessedEntry).reason = "Failed after maximum retries" :=
  (executor_termination_attempt_bound neverDoneSubmit
      [⟨"MOVIE#106", "METADATA"⟩] 25 ["1"] (fun _ => [])).2.2.1 _ (by decide)

/-- C8: evaluation of `updateInventory` at a subtract request larger than the
current stock (stock 5, subtract 10).  The condition only checks the CURRENT
stock against zero and the update sets `stock = :quantity`, so the call
succeeds and overwrites the stock with the request quantity — it does not fail
with "Insufficient stock available" and does not leave the item unchanged,
although the resulting stock `5 - 10` would be negative. -/
theorem updateInventory_overdraw_succeeds :
    updateInventory ⟨"001", 10, .subtract, "system"⟩ "2024-01-01T00:00:00Z"
        (some ⟨5, "2023-12-31T00:00:00Z"⟩) =
      (⟨true, some ⟨10, "2024-01-01T00:00:00Z"⟩, none⟩,
        some ⟨10, "2024-01-01T00:00:00Z"⟩) ∧
    (5 : Int) - 10 < 0 := by decide

/-- C9: two `updateInventory` requests differing only in `operation` build the
identical `UpdateItemCommand` — whose `UpdateExpression` is the literal
`SET stock = :quantity, lastUpdated = :updateTime` rather than the computed
add/subtract expression — and produce the identical response and stored item
on every store state. -/
theorem updateInventory_independent_of_operation (productId : String)
    (quantity : Int) (updatedBy now : String) (item : Option InventoryItem) :
    buildUpdateInventoryCommand ⟨productId, quantity, .add, updatedBy⟩ now =
      buildUpdateInventoryCommand ⟨productId, quantity, .subtract, updatedBy⟩ now ∧
    (buildUpdateInventoryCommand ⟨productId, quantity, .add, updatedBy⟩ now).UpdateExpression =
      "SET stock = :quantity,\n                        lastUpdated = :updateTime" ∧
    updateInventory ⟨productId, quantity, .add, updatedBy⟩ now item =
      updateInventory ⟨productId, quantity, .subtract, updatedBy⟩ now item :=
  ⟨rfl, rfl, rfl⟩

/-- C10 counterexample: a product with stock 0 AND an empty `PK` is rejected
with the `PK` message, not "Missing required field: stock", so the claim's
universal statement over every stock-0 product fails as written. -/
theorem putProduct_stock_zero_earlier_field_error :
    productStockZeroEmptyPK.stock = 0 ∧
    putProduct (fun _ => true) productStockZeroEmptyPK =
      .validationError "Missing required field: PK" ∧
    decide (("Missing required field: PK" : String) =
      "Missing required field: stock") = false := by
  refine ⟨by decide, by decide, by decide⟩

/-- C10 (amended): for every product whose stock is 0 and whose required
fields checked before stock (PK, SK, productId, name, category, price) are
all truthy, `putProduct` returns the validation error
"Missing required field: stock" — issuing no store call — even though the
stock rule itself (`stock < 0 || !Number.isInteger(stock)`) accepts 0. -/
theorem putProduct_stock_zero_missing_field (dateOk : String → Bool)
    (p : Product) (hstock : p.stock = 0) (h1 : p.PK ≠ "") (h2 : p.SK ≠ "")
    (h3 : p.productId ≠ "") (h4 : p.name ≠ "") (h5 : p.category ≠ "")
    (h6 : p.price ≠ 0) :
    putProduct dateOk p = .validationError "Missing required field: stock" ∧
    decide (stockRuleViolated p.stock) = false := by
  constructor
  · simp [putProduct, requiredFieldCheck, h1, h2, h3, h4, h5, h6, hstock]
  · rw [hstock]
    decide

/-- C10 witness: the amended statement evaluated at a concrete product whose
only falsy field is its zero stock. -/
theorem putProduct_stock_zero_missing_field_witness :
    putProduct (fun _ => true) productStockZero =
      .validationError "Missing required field: stock" ∧
    decide (stockRuleViolated productStockZero.stock) = false :=
  putProduct_stock_zero_missing_field (fun _ => true) productStockZero
    (by decide) (by decide) (by decide) (by decide) (by decide) (by decide)
    (by decide)

end DynamoCourse
